import Mathlib

/-!
# Verification of the pyndulum cart-pendulum simulation core

Shallow embedding of the simulation engine of the `pyndulum` repository
(`src/analysis/pyndulum`): the state representation (`src/primitives.py`),
the dynamics models (`src/dynamics.py`), the RK4 integrator
(`src/integrators.py`), the actuator timing model (`src/system.py`),
the controllers (`src/controllers/`), and the time-stepping loop
(`main.py`, class `Simulation`).

Physical quantities are embedded as real numbers in the canonical
(base-SI) unit system; the `pint` unit bookkeeping of the source is
abstracted away, every stored value being the base-units magnitude.
-/

namespace Pyndulum

open scoped Classical

noncomputable section

/-- `State` from `src/primitives.py`: cart position, cart velocity,
pendulum angle, pendulum angular velocity (canonical units: m, m/s,
rad, rad/s). -/
structure State where
  x : ℝ
  vx : ℝ
  theta : ℝ
  omega : ℝ

/-- `State.to_vector` from `src/primitives.py`: the four base-unit
magnitudes as a plain numeric 4-vector. -/
def State.to_vector (s : State) : Fin 4 → ℝ := ![s.x, s.vx, s.theta, s.omega]

/-- `State.from_vector` from `src/primitives.py`: rebuild a `State`
from a numeric 4-vector, reattaching canonical units. -/
def State.from_vector (v : Fin 4 → ℝ) : State :=
  { x := v 0, vx := v 1, theta := v 2, omega := v 3 }

/-- `State.add_vector` from `src/primitives.py` (via
`add_vector_unitless`): componentwise addition of a raw numeric delta
onto a state. -/
def State.add_vector (s : State) (v : Fin 4 → ℝ) : State :=
  { x := s.x + v 0, vx := s.vx + v 1, theta := s.theta + v 2, omega := s.omega + v 3 }

/-- `Actuator` from `src/system.py`: optional force limit, refresh
rate and command lag (all base-unit magnitudes). -/
structure Actuator where
  force_limit : Option ℝ := none
  refresh_rate : Option ℝ := none
  command_lag : Option ℝ := none

/-- Floor-based remainder, the semantics of Python's `%` on numbers:
`t % m = t - m * ⌊t / m⌋`. -/
def pymod (t m : ℝ) : ℝ := t - m * ⌊t / m⌋

/-- `Actuator.enforce_limit` from `src/system.py`.  The Python guard is
`if self.force_limit and abs(u) > self.force_limit`: an absent limit
(`None`) and a zero limit are both falsy, so clamping happens only for
a present, nonzero limit whose value is exceeded in magnitude; the
clamped value is `np.sign(u) * force_limit`. -/
def Actuator.enforce_limit (a : Actuator) (u : ℝ) : ℝ :=
  match a.force_limit with
  | none => u
  | some L => if L ≠ 0 ∧ |u| > L then Real.sign u * L else u

/-- `Actuator.is_update_time` from `src/system.py`:
`(refresh_rate is None) or (dt == 0) or (time % (1/refresh_rate) < dt)`. -/
def Actuator.is_update_time (a : Actuator) (time dt : ℝ) : Prop :=
  match a.refresh_rate with
  | none => True
  | some r => dt = 0 ∨ pymod time (1 / r) < dt

/-- `Actuator.is_past_lag_time` from `src/system.py`:
`(command_lag is None) or (time - lag_window_start >= command_lag)`. -/
def Actuator.is_past_lag_time (a : Actuator) (time lag_window_start : ℝ) : Prop :=
  match a.command_lag with
  | none => True
  | some lag => time - lag_window_start ≥ lag

/-- `System` from `src/system.py`, reduced to the attributes set in
`__post_init__` that the dynamics and the loop consume: `b` (cart
friction coefficient), `g` (gravity), `moi` (pendulum moment of
inertia about the pivot), the two masses and the pivot-to-centroid
distance `l_com`. -/
structure System where
  actuator : Actuator
  m_cart : ℝ
  m_pend : ℝ
  l_com : ℝ
  moi : ℝ
  g : ℝ
  b : ℝ

/-- The two concrete controllers of `src/controllers/`:
`ConstantController` (stores the constant force in base units at
construction) and `LQRController` (stores the gain row `K` — computed
once at construction by the external Riccati solve — and the
setpoint vector). -/
inductive Controller where
  | const (u : ℝ)
  | lqr (K : Fin 4 → ℝ) (setpoint : Fin 4 → ℝ)

/-- `compute_u` of the two controllers.  `ConstantController.compute_u`
(`src/controllers/constant.py`) returns `enforce_limit(self.u)`,
ignoring the sensed state; `LQRController.compute_u`
(`src/controllers/lqr.py`) returns
`enforce_limit(-K @ (state.to_vector() - setpoint))`. -/
def Controller.compute_u : Controller → System → State → ℝ
  | .const u0, sys, _ => sys.actuator.enforce_limit u0
  | .lqr K sp, sys, s =>
      sys.actuator.enforce_limit (-(∑ i, K i * (s.to_vector i - sp i)))

/-- `RK4Integrator.step` from `src/integrators.py`, translated
literally: four stages, each stage state rebuilt with
`State.from_vector(state.to_vector() + 0.5 * k * dt)` (resp. `k3 * dt`),
and the extra arguments (`system`, `u`) passed unchanged to every
stage evaluation of the derivative function. -/
def RK4Integrator.step (f : State → System → ℝ → Fin 4 → ℝ)
    (state : State) (dt : ℝ) (sys : System) (u : ℝ) : State :=
  let k1 := f state sys u
  let state_k2 := State.from_vector (fun i => state.to_vector i + 0.5 * k1 i * dt)
  let k2 := f state_k2 sys u
  let state_k3 := State.from_vector (fun i => state.to_vector i + 0.5 * k2 i * dt)
  let k3 := f state_k3 sys u
  let state_k4 := State.from_vector (fun i => state.to_vector i + k3 i * dt)
  let k4 := f state_k4 sys u
  State.from_vector
    (fun i => state.to_vector i + dt / 6 * (k1 i + 2 * k2 i + 2 * k3 i + k4 i))

namespace NonlinearModel

/-- `NonlinearModel.calc_state_derivative_unitless` from
`src/dynamics.py`: the full nonlinear equations of motion, returning
`(x_dot, x_ddot, theta_dot, theta_ddot)`.  Translated term by term
from the source. -/
def calc_state_derivative_unitless (vx theta omega m_cart m_pend l_com moi g b u : ℝ) :
    ℝ × ℝ × ℝ × ℝ :=
  let x_ddot_coeff := 1 / (
    m_pend ^ 2 * l_com ^ 2 * Real.cos theta ^ 2 / (moi + m_pend * l_com ^ 2)
      - (m_cart + m_pend))
  let theta_ddot_coeff := m_pend * l_com * Real.cos theta / (
    m_pend ^ 2 * l_com ^ 2 * Real.cos theta ^ 2
      - (m_cart + m_pend) * (moi + m_pend * l_com ^ 2))
  let x_dot := vx
  let x_ddot := x_ddot_coeff * (b * vx - m_pend * l_com * omega ^ 2 * Real.sin theta
    + m_pend ^ 2 * l_com ^ 2 * g * Real.sin theta * Real.cos theta / (moi + m_pend * l_com ^ 2)
    - u)
  let theta_dot := omega
  let theta_ddot := theta_ddot_coeff * (
    -b * vx + m_pend * l_com * omega ^ 2 * Real.sin theta
      - (m_cart + m_pend) * g * Real.tan theta + u)
  (x_dot, x_ddot, theta_dot, theta_ddot)

/-- `NonlinearModel.calc_state_derivative` from `src/dynamics.py`:
unpack the state and system attributes, evaluate the unitless
equations of motion, and return the derivative as a 4-vector. -/
def calc_state_derivative (s : State) (sys : System) (u : ℝ) : Fin 4 → ℝ :=
  let d := calc_state_derivative_unitless s.vx s.theta s.omega
    sys.m_cart sys.m_pend sys.l_com sys.moi sys.g sys.b u
  ![d.1, d.2.1, d.2.2.1, d.2.2.2]

/-- `calc_state_derivative_unitless` viewed as a function of the
canonical state 4-vector `s` (so `vx = s 1`, `theta = s 2`,
`omega = s 3`; the derivative does not depend on `s 0 = x`).  Used to
state the Jacobian/linearization claim. -/
def deriv_vec (m_cart m_pend l_com moi g b : ℝ) (s : Fin 4 → ℝ) (u : ℝ) : Fin 4 → ℝ :=
  let d := calc_state_derivative_unitless (s 1) (s 2) (s 3) m_cart m_pend l_com moi g b u
  ![d.1, d.2.1, d.2.2.1, d.2.2.2]

end NonlinearModel

namespace LinearizedModel

/-- `LinearizedModel.get_A_B_unitless` from `src/dynamics.py`: the
`A` matrix and `B` vector of the linearization about the upright
equilibrium, with the denominators `p` and `q` and the entries
`a22, a32, a24, a34, b2, b4` translated term by term from the source
(`B` is kept as the 4 stacked values; the source reshapes it into a
column). -/
def get_A_B_unitless (m_cart m_pend l_com moi g b : ℝ) :
    Matrix (Fin 4) (Fin 4) ℝ × (Fin 4 → ℝ) :=
  let p := m_cart + m_pend - m_pend ^ 2 * l_com ^ 2 / (moi + m_pend * l_com ^ 2)
  let q := (m_pend ^ 2 * l_com ^ 2 - (moi + m_pend * l_com ^ 2) * (m_cart + m_pend))
    / (m_pend * l_com)
  let a22 := -b / p
  let a32 := -g * m_pend ^ 2 * l_com ^ 2 / (p * (moi + m_pend * l_com ^ 2))
  let a24 := -b / q
  let a34 := -1 * (m_cart + m_pend) * g / q
  let b2 := 1 / p
  let b4 := 1 / q
  (Matrix.of ![![0, 1, 0, 0], ![0, a22, a32, 0], ![0, 0, 0, 1], ![0, a24, a34, 0]],
   ![0, b2, 0, b4])

/-- `LinearizedModel.get_A_B` from `src/dynamics.py`: unpack the
system attributes and call the unitless version. -/
def get_A_B (sys : System) : Matrix (Fin 4) (Fin 4) ℝ × (Fin 4 → ℝ) :=
  get_A_B_unitless sys.m_cart sys.m_pend sys.l_com sys.moi sys.g sys.b

/-- `LinearizedModel.calc_state_derivative` from `src/dynamics.py`:
`A @ state.to_vector() + B * u.magnitude`.  In NumPy, `A @ x` has
shape `(4,)` while `B * u` has shape `(4, 1)` (the source builds `B`
with `.reshape(-1, 1)`), so the addition broadcasts to a `(4, 4)`
array whose entry `(i, j)` is `(A @ x)[j] + B[i] * u`.  The embedding
reproduces that broadcast result. -/
def calc_state_derivative (s : State) (sys : System) (u : ℝ) :
    Matrix (Fin 4) (Fin 4) ℝ :=
  let AB := get_A_B sys
  Matrix.of fun i j => AB.1.mulVec s.to_vector j + AB.2 i * u

/-- The 4-vector `A · state_vector + B · u` that the spec (§4.3)
prescribes as the value of `Linear.calc_state_derivative`, written
from the spec's words so it can be compared with the array the code
actually produces. -/
def calc_state_derivative_spec (s : State) (sys : System) (u : ℝ) : Fin 4 → ℝ :=
  let AB := get_A_B sys
  fun i => AB.1.mulVec s.to_vector i + AB.2 i * u

end LinearizedModel

/-- The mutable per-run attributes of the `Simulation` dataclass
(`main.py`): current time (`self.time`, dataclass default `0.0 s`),
current state, applied input `u`, latest computed command `lag_u`,
and `lag_window_start`. -/
structure SimState where
  time : ℝ
  state : State
  u : ℝ
  lag_u : ℝ
  lag_window_start : ℝ

/-- `Simulation.update` from `main.py`: compute `delta_time` from the
stored previous time, re-query the controller when `is_update_time`
(also setting `lag_window_start`), promote the lagged command when
`is_past_lag_time`, then advance the state with the RK4 integrator
and the nonlinear dynamics.  The source has no special case for
`delta_time = 0`; the integrator runs regardless. -/
def Simulation.update (sys : System) (ctrl : Controller) (σ : SimState) (t : ℝ) :
    SimState :=
  let dt := t - σ.time
  let lag_u :=
    if sys.actuator.is_update_time t dt then ctrl.compute_u sys σ.state else σ.lag_u
  let lag_window_start :=
    if sys.actuator.is_update_time t dt then t else σ.lag_window_start
  let u := if sys.actuator.is_past_lag_time t lag_window_start then lag_u else σ.u
  let state := RK4Integrator.step NonlinearModel.calc_state_derivative σ.state dt sys u
  ⟨t, state, u, lag_u, lag_window_start⟩

/-- The loop of `Simulation.run`: for every entry of `times` (the
first included), call `update`, then append `state.to_vector()` to the
state history and the applied input `u` to the input history. -/
def Simulation.loop (sys : System) (ctrl : Controller) :
    SimState → List ℝ → List (Fin 4 → ℝ) × List ℝ
  | _, [] => ([], [])
  | σ, t :: rest =>
    let σ2 := Simulation.update sys ctrl σ t
    let tail := Simulation.loop sys ctrl σ2 rest
    (σ2.state.to_vector :: tail.1, σ2.u :: tail.2)

/-- The `Simulation` attribute values at the top of `Simulation.run`
(`main.py`): `u = lag_u = 0` newtons and `lag_window_start = times[0]`
are set by `run`; the stored time is whatever the `Simulation` already
held (`run` does not reset it — the dataclass default is `0.0`
seconds), and the state is the initial state. -/
def Simulation.init (state0 : State) (time0 : ℝ) (times : List ℝ) : SimState :=
  ⟨time0, state0, 0, 0, times.headD 0⟩

/-- `Simulation.run` from `main.py`: initialize `u`, `lag_u` and
`lag_window_start`, then iterate `update` over every entry of `times`
(including `times[0]`), recording the state vector and applied input
after each update.  `run` performs no validation of `times`.  (The
source indexes `times[0]`, so it presumes a nonempty sequence; the
embedding totalizes the initializer with `headD`.) -/
def Simulation.run (sys : System) (ctrl : Controller) (state0 : State) (time0 : ℝ)
    (times : List ℝ) : List (Fin 4 → ℝ) × List ℝ :=
  Simulation.loop sys ctrl (Simulation.init state0 time0 times) times

/-- A concrete valid plant used by the concrete runs below: ideal
actuator, `m_cart = m_pend = l_com = moi = g = 1`, frictionless
(`b = 0`).  With `theta = omega = 0` and `u = 0` its dynamics keep the
pendulum exactly upright, so runs stay in rational arithmetic. -/
def testSystem : System := ⟨⟨none, none, none⟩, 1, 1, 1, 1, 1, 0⟩

@[simp] theorem State.to_vector_mk (x vx theta omega : ℝ) :
    State.to_vector ⟨x, vx, theta, omega⟩ = ![x, vx, theta, omega] := rfl

theorem State.from_vector_to_vector (s : State) : State.from_vector s.to_vector = s := rfl

theorem State.from_vector_add (s : State) (v : Fin 4 → ℝ) :
    State.from_vector (fun i => s.to_vector i + v i) = s.add_vector v := rfl

/-- Projections of `testSystem`, so concrete runs can be simplified
without unfolding the constant itself. -/
@[simp] theorem testSystem_actuator : testSystem.actuator = ⟨none, none, none⟩ := rfl

/-- `is_update_time` always holds on a zero-length step: the source's
`(dt == 0)` disjunct short-circuits whatever the refresh rate is. -/
theorem Actuator.is_update_time_dt_zero (a : Actuator) (t : ℝ) :
    a.is_update_time t 0 := by
  rcases a with ⟨fl, rr, cl⟩
  cases rr with
  | none => trivial
  | some r => exact Or.inl rfl

/-- On a zero-length step the RK4 integrator returns the state
unchanged, for any derivative function and input. -/
theorem RK4Integrator.step_dt_zero (f : State → System → ℝ → Fin 4 → ℝ)
    (s : State) (sys : System) (u : ℝ) :
    RK4Integrator.step f s 0 sys u = s := by
  simp [RK4Integrator.step, State.from_vector_to_vector]

/-- On `testSystem` with the pendulum exactly upright and at rest and
no applied force, the nonlinear derivative is `(vx, 0, 0, 0)`. -/
theorem nonlin_deriv_flat (x vx : ℝ) :
    NonlinearModel.calc_state_derivative ⟨x, vx, 0, 0⟩ testSystem 0 = ![vx, 0, 0, 0] := by
  funext i
  fin_cases i <;>
    norm_num [NonlinearModel.calc_state_derivative,
      NonlinearModel.calc_state_derivative_unitless, testSystem,
      Matrix.cons_val_zero, Matrix.cons_val_one, Matrix.head_cons,
      Matrix.cons_val_two, Matrix.cons_val_three, Matrix.vecHead, Matrix.vecTail]

/-- RK4 on `testSystem` from an upright, at-rest-pendulum state with
`u = 0` moves the cart by `dt * vx` and changes nothing else. -/
theorem rk4_flat (x vx dt : ℝ) :
    RK4Integrator.step NonlinearModel.calc_state_derivative ⟨x, vx, 0, 0⟩ dt testSystem 0 =
      ⟨x + dt * vx, vx, 0, 0⟩ := by
  simp only [RK4Integrator.step, State.to_vector_mk, nonlin_deriv_flat, State.from_vector,
    Matrix.cons_val_zero, Matrix.cons_val_one, Matrix.head_cons, Matrix.cons_val_two,
    Matrix.cons_val_three, Matrix.vecHead, Matrix.vecTail, Function.comp,
    mul_zero, zero_mul, add_zero, zero_add]
  norm_num [nonlin_deriv_flat]
  ring

/-- Both histories produced by the loop have one entry per timestamp. -/
theorem Simulation.loop_length (sys : System) (ctrl : Controller) (σ : SimState)
    (times : List ℝ) :
    (Simulation.loop sys ctrl σ times).1.length = times.length ∧
      (Simulation.loop sys ctrl σ times).2.length = times.length := by
  induction times generalizing σ with
  | nil => simp [Simulation.loop]
  | cons t rest ih => simp [Simulation.loop, ih]

/-- Partial derivative of the nonlinear `x_ddot` with respect to `vx`
at the upright equilibrium equals the `a22` entry of the `A` matrix. -/
theorem C1_entry_vx_xddot (m_cart m_pend l_com moi g b : ℝ)
    (_hc1 : moi + m_pend * l_com ^ 2 ≠ 0)
    (_hX : m_pend ^ 2 * l_com ^ 2 / (moi + m_pend * l_com ^ 2) - (m_cart + m_pend) ≠ 0)
    (_hp : m_cart + m_pend - m_pend ^ 2 * l_com ^ 2 / (moi + m_pend * l_com ^ 2) ≠ 0) :
    HasDerivAt
      (fun v => NonlinearModel.deriv_vec m_cart m_pend l_com moi g b (Pi.single 1 v) 0 1)
      ((LinearizedModel.get_A_B_unitless m_cart m_pend l_com moi g b).1 1 1) 0 := by
  have e : (fun v => NonlinearModel.deriv_vec m_cart m_pend l_com moi g b (Pi.single 1 v) 0 1) =
      fun v : ℝ =>
        1 / (m_pend ^ 2 * l_com ^ 2 / (moi + m_pend * l_com ^ 2) - (m_cart + m_pend)) *
          (b * v) := by
    funext v
    simp [NonlinearModel.deriv_vec, NonlinearModel.calc_state_derivative_unitless,
      Pi.single_apply]
  rw [e]
  have hder : HasDerivAt
      (fun v : ℝ =>
        1 / (m_pend ^ 2 * l_com ^ 2 / (moi + m_pend * l_com ^ 2) - (m_cart + m_pend)) *
          (b * v))
      (1 / (m_pend ^ 2 * l_com ^ 2 / (moi + m_pend * l_com ^ 2) - (m_cart + m_pend)) *
        (b * 1)) 0 :=
    HasDerivAt.const_mul _ (HasDerivAt.const_mul b (hasDerivAt_id' 0))
  convert hder using 1
  show -b / (m_cart + m_pend - m_pend ^ 2 * l_com ^ 2 / (moi + m_pend * l_com ^ 2)) = _
  rw [one_div, show m_pend ^ 2 * l_com ^ 2 / (moi + m_pend * l_com ^ 2) - (m_cart + m_pend)
      = -(m_cart + m_pend - m_pend ^ 2 * l_com ^ 2 / (moi + m_pend * l_com ^ 2)) from by ring,
    inv_neg]
  ring

/-- Partial derivative of the nonlinear `x_ddot` with respect to
`theta` at the upright equilibrium equals the `a32` entry of the `A`
matrix. -/
theorem C1_entry_theta_xddot (m_cart m_pend l_com moi g b : ℝ)
    (hc1 : moi + m_pend * l_com ^ 2 ≠ 0)
    (hX : m_pend ^ 2 * l_com ^ 2 / (moi + m_pend * l_com ^ 2) - (m_cart + m_pend) ≠ 0)
    (hp : m_cart + m_pend - m_pend ^ 2 * l_com ^ 2 / (moi + m_pend * l_com ^ 2) ≠ 0) :
    HasDerivAt
      (fun v => NonlinearModel.deriv_vec m_cart m_pend l_com moi g b (Pi.single 2 v) 0 1)
      ((LinearizedModel.get_A_B_unitless m_cart m_pend l_com moi g b).1 1 2) 0 := by
  have e : (fun v => NonlinearModel.deriv_vec m_cart m_pend l_com moi g b (Pi.single 2 v) 0 1) =
      fun v : ℝ =>
        1 / (m_pend ^ 2 * l_com ^ 2 * Real.cos v ^ 2 / (moi + m_pend * l_com ^ 2) -
            (m_cart + m_pend)) *
          (m_pend ^ 2 * l_com ^ 2 * g * Real.sin v * Real.cos v /
            (moi + m_pend * l_com ^ 2)) := by
    funext v
    simp [NonlinearModel.deriv_vec, NonlinearModel.calc_state_derivative_unitless,
      Pi.single_apply]
  rw [e]
  have hd0 : m_pend ^ 2 * l_com ^ 2 * Real.cos 0 ^ 2 / (moi + m_pend * l_com ^ 2) -
      (m_cart + m_pend) ≠ 0 := by
    rw [Real.cos_zero]; simpa using hX
  have hDen := ((((Real.hasDerivAt_cos 0).pow 2).const_mul
    (m_pend ^ 2 * l_com ^ 2)).div_const (moi + m_pend * l_com ^ 2)).sub_const
    (m_cart + m_pend)
  have hNum := (((Real.hasDerivAt_sin 0).const_mul
    (m_pend ^ 2 * l_com ^ 2 * g)).mul (Real.hasDerivAt_cos 0)).div_const
    (moi + m_pend * l_com ^ 2)
  have hder := ((hasDerivAt_const 0 (1 : ℝ)).div hDen hd0).mul hNum
  convert hder using 1
  show -g * m_pend ^ 2 * l_com ^ 2 /
      ((m_cart + m_pend - m_pend ^ 2 * l_com ^ 2 / (moi + m_pend * l_com ^ 2)) *
        (moi + m_pend * l_com ^ 2)) = _
  rw [Real.cos_zero, Real.sin_zero,
    show m_pend ^ 2 * l_com ^ 2 * (1 : ℝ) ^ 2 / (moi + m_pend * l_com ^ 2) - (m_cart + m_pend)
      = -(m_cart + m_pend - m_pend ^ 2 * l_com ^ 2 / (moi + m_pend * l_com ^ 2)) from by ring,
    one_div, inv_neg, neg_sq]
  have hpc : (m_cart + m_pend - m_pend ^ 2 * l_com ^ 2 / (moi + m_pend * l_com ^ 2)) *
      (moi + m_pend * l_com ^ 2) =
      m_pend * l_com ^ 2 * m_cart + m_pend * moi + m_cart * moi := by
    field_simp
    ring
  have hS : m_pend * l_com ^ 2 * m_cart + m_pend * moi + m_cart * moi ≠ 0 :=
    hpc ▸ mul_ne_zero hp hc1
  have hW : (m_cart + m_pend) * (moi + m_pend * l_com ^ 2) - m_pend ^ 2 * l_com ^ 2 ≠ 0 := by
    rw [show (m_cart + m_pend) * (moi + m_pend * l_com ^ 2) - m_pend ^ 2 * l_com ^ 2 =
      m_pend * l_com ^ 2 * m_cart + m_pend * moi + m_cart * moi from by ring]
    exact hS
  field_simp [hp, hc1, hS]
  ring

/-- Partial derivative of the nonlinear `theta_ddot` with respect to
`vx` at the upright equilibrium equals the `a24` entry of the `A`
matrix. -/
theorem C1_entry_vx_thetaddot (m_cart m_pend l_com moi g b : ℝ)
    (_hml : m_pend * l_com ≠ 0)
    (hT : m_pend ^ 2 * l_com ^ 2 - (m_cart + m_pend) * (moi + m_pend * l_com ^ 2) ≠ 0) :
    HasDerivAt
      (fun v => NonlinearModel.deriv_vec m_cart m_pend l_com moi g b (Pi.single 1 v) 0 3)
      ((LinearizedModel.get_A_B_unitless m_cart m_pend l_com moi g b).1 3 1) 0 := by
  have e : (fun v => NonlinearModel.deriv_vec m_cart m_pend l_com moi g b (Pi.single 1 v) 0 3) =
      fun v : ℝ =>
        m_pend * l_com / (m_pend ^ 2 * l_com ^ 2 -
            (m_cart + m_pend) * (moi + m_pend * l_com ^ 2)) * -(b * v) := by
    funext v
    simp [NonlinearModel.deriv_vec, NonlinearModel.calc_state_derivative_unitless,
      Pi.single_apply]
    try ring
  rw [e]
  have hder : HasDerivAt
      (fun v : ℝ => m_pend * l_com / (m_pend ^ 2 * l_com ^ 2 -
          (m_cart + m_pend) * (moi + m_pend * l_com ^ 2)) * -(b * v))
      (m_pend * l_com / (m_pend ^ 2 * l_com ^ 2 -
          (m_cart + m_pend) * (moi + m_pend * l_com ^ 2)) * -(b * 1)) 0 :=
    HasDerivAt.const_mul _ ((HasDerivAt.const_mul b (hasDerivAt_id' 0)).neg)
  convert hder using 1
  have hT2 : m_pend ^ 2 * l_com ^ 2 - (moi + m_pend * l_com ^ 2) * (m_cart + m_pend) ≠ 0 := by
    rw [show m_pend ^ 2 * l_com ^ 2 - (moi + m_pend * l_com ^ 2) * (m_cart + m_pend) =
      m_pend ^ 2 * l_com ^ 2 - (m_cart + m_pend) * (moi + m_pend * l_com ^ 2) from by ring]
    exact hT
  show -b / ((m_pend ^ 2 * l_com ^ 2 - (moi + m_pend * l_com ^ 2) * (m_cart + m_pend)) /
      (m_pend * l_com)) = _
  rw [div_div_eq_mul_div,
    show m_pend ^ 2 * l_com ^ 2 - (moi + m_pend * l_com ^ 2) * (m_cart + m_pend) =
      m_pend ^ 2 * l_com ^ 2 - (m_cart + m_pend) * (moi + m_pend * l_com ^ 2) from by ring]
  ring

/-- Partial derivative of the nonlinear `theta_ddot` with respect to
`theta` at the upright equilibrium equals the `a34` entry of the `A`
matrix. -/
theorem C1_entry_theta_thetaddot (m_cart m_pend l_com moi g b : ℝ)
    (_hml : m_pend * l_com ≠ 0)
    (hT : m_pend ^ 2 * l_com ^ 2 - (m_cart + m_pend) * (moi + m_pend * l_com ^ 2) ≠ 0) :
    HasDerivAt
      (fun v => NonlinearModel.deriv_vec m_cart m_pend l_com moi g b (Pi.single 2 v) 0 3)
      ((LinearizedModel.get_A_B_unitless m_cart m_pend l_com moi g b).1 3 2) 0 := by
  have e : (fun v => NonlinearModel.deriv_vec m_cart m_pend l_com moi g b (Pi.single 2 v) 0 3) =
      fun v : ℝ =>
        m_pend * l_com * Real.cos v / (m_pend ^ 2 * l_com ^ 2 * Real.cos v ^ 2 -
            (m_cart + m_pend) * (moi + m_pend * l_com ^ 2)) *
          -((m_cart + m_pend) * g * Real.tan v) := by
    funext v
    simp [NonlinearModel.deriv_vec, NonlinearModel.calc_state_derivative_unitless,
      Pi.single_apply]
    try ring
  rw [e]
  have hTd0 : m_pend ^ 2 * l_com ^ 2 * Real.cos 0 ^ 2 -
      (m_cart + m_pend) * (moi + m_pend * l_com ^ 2) ≠ 0 := by
    rw [Real.cos_zero]; simpa using hT
  have hcos0 : Real.cos 0 ≠ 0 := by rw [Real.cos_zero]; exact one_ne_zero
  have hfrac := ((Real.hasDerivAt_cos 0).const_mul (m_pend * l_com)).div
    ((((Real.hasDerivAt_cos 0).pow 2).const_mul (m_pend ^ 2 * l_com ^ 2)).sub_const
      ((m_cart + m_pend) * (moi + m_pend * l_com ^ 2))) hTd0
  have hbr := ((Real.hasDerivAt_tan hcos0).const_mul ((m_cart + m_pend) * g)).neg
  have hder := hfrac.mul hbr
  convert hder using 1
  show -1 * (m_cart + m_pend) * g /
      ((m_pend ^ 2 * l_com ^ 2 - (moi + m_pend * l_com ^ 2) * (m_cart + m_pend)) /
        (m_pend * l_com)) = _
  rw [Real.cos_zero, Real.sin_zero, Real.tan_zero, div_div_eq_mul_div,
    show m_pend ^ 2 * l_com ^ 2 - (moi + m_pend * l_com ^ 2) * (m_cart + m_pend) =
      m_pend ^ 2 * l_com ^ 2 - (m_cart + m_pend) * (moi + m_pend * l_com ^ 2) from by ring]
  norm_num
  field_simp [_hml, hT]
  ring

/-- Partial derivative of the nonlinear `x_ddot` with respect to the
control input `u` at the upright equilibrium equals the `b2` entry of
the `B` vector. -/
theorem C1_entry_u_xddot (m_cart m_pend l_com moi g b : ℝ)
    (_hc1 : moi + m_pend * l_com ^ 2 ≠ 0)
    (_hp : m_cart + m_pend - m_pend ^ 2 * l_com ^ 2 / (moi + m_pend * l_com ^ 2) ≠ 0) :
    HasDerivAt
      (fun u => NonlinearModel.deriv_vec m_cart m_pend l_com moi g b 0 u 1)
      ((LinearizedModel.get_A_B_unitless m_cart m_pend l_com moi g b).2 1) 0 := by
  have e : (fun u => NonlinearModel.deriv_vec m_cart m_pend l_com moi g b 0 u 1) =
      fun u : ℝ =>
        1 / (m_pend ^ 2 * l_com ^ 2 / (moi + m_pend * l_com ^ 2) - (m_cart + m_pend)) * -u := by
    funext u
    simp [NonlinearModel.deriv_vec, NonlinearModel.calc_state_derivative_unitless]
    try ring
  rw [e]
  have hder : HasDerivAt
      (fun u : ℝ =>
        1 / (m_pend ^ 2 * l_com ^ 2 / (moi + m_pend * l_com ^ 2) - (m_cart + m_pend)) * -u)
      (1 / (m_pend ^ 2 * l_com ^ 2 / (moi + m_pend * l_com ^ 2) - (m_cart + m_pend)) * -1) 0 :=
    HasDerivAt.const_mul _ ((hasDerivAt_id' 0).neg)
  convert hder using 1
  show 1 / (m_cart + m_pend - m_pend ^ 2 * l_com ^ 2 / (moi + m_pend * l_com ^ 2)) = _
  rw [one_div, one_div,
    show m_pend ^ 2 * l_com ^ 2 / (moi + m_pend * l_com ^ 2) - (m_cart + m_pend)
      = -(m_cart + m_pend - m_pend ^ 2 * l_com ^ 2 / (moi + m_pend * l_com ^ 2)) from by ring,
    inv_neg]
  ring

/-- Partial derivative of the nonlinear `theta_ddot` with respect to
the control input `u` at the upright equilibrium equals the `b4` entry
of the `B` vector. -/
theorem C1_entry_u_thetaddot (m_cart m_pend l_com moi g b : ℝ)
    (_hml : m_pend * l_com ≠ 0)
    (_hT : m_pend ^ 2 * l_com ^ 2 - (m_cart + m_pend) * (moi + m_pend * l_com ^ 2) ≠ 0) :
    HasDerivAt
      (fun u => NonlinearModel.deriv_vec m_cart m_pend l_com moi g b 0 u 3)
      ((LinearizedModel.get_A_B_unitless m_cart m_pend l_com moi g b).2 3) 0 := by
  have e : (fun u => NonlinearModel.deriv_vec m_cart m_pend l_com moi g b 0 u 3) =
      fun u : ℝ =>
        m_pend * l_com / (m_pend ^ 2 * l_com ^ 2 -
            (m_cart + m_pend) * (moi + m_pend * l_com ^ 2)) * u := by
    funext u
    simp [NonlinearModel.deriv_vec, NonlinearModel.calc_state_derivative_unitless]
    try ring
  rw [e]
  have hder : HasDerivAt
      (fun u : ℝ => m_pend * l_com / (m_pend ^ 2 * l_com ^ 2 -
          (m_cart + m_pend) * (moi + m_pend * l_com ^ 2)) * u)
      (m_pend * l_com / (m_pend ^ 2 * l_com ^ 2 -
          (m_cart + m_pend) * (moi + m_pend * l_com ^ 2)) * 1) 0 :=
    HasDerivAt.const_mul _ (hasDerivAt_id' 0)
  convert hder using 1
  show 1 / ((m_pend ^ 2 * l_com ^ 2 - (moi + m_pend * l_com ^ 2) * (m_cart + m_pend)) /
      (m_pend * l_com)) = _
  rw [one_div_div,
    show m_pend ^ 2 * l_com ^ 2 - (moi + m_pend * l_com ^ 2) * (m_cart + m_pend) =
      m_pend ^ 2 * l_com ^ 2 - (m_cart + m_pend) * (moi + m_pend * l_com ^ 2) from by ring]
  ring

end

set_option maxHeartbeats 1000000 in
/-- **C1** — For every valid plant (positive masses, positive
pivot-to-centroid distance, positive moment of inertia), the
linearization of the nonlinear equations of motion at the upright
equilibrium (zero state, zero input) equals exactly the `A` matrix and
`B` vector of `LinearizedModel.get_A_B_unitless`: the partial
derivative of the `i`-th component of
`NonlinearModel.calc_state_derivative_unitless` along the `j`-th state
coordinate at the zero state is `A i j`, and its partial derivative in
the control input `u` is `B i`. -/
theorem C1_linearization_matches (m_cart m_pend l_com moi g b : ℝ)
    (hmc : 0 < m_cart) (hmp : 0 < m_pend) (hl : 0 < l_com) (hmoi : 0 < moi) :
    (∀ i j : Fin 4,
      HasDerivAt
        (fun v => NonlinearModel.deriv_vec m_cart m_pend l_com moi g b (Pi.single j v) 0 i)
        ((LinearizedModel.get_A_B_unitless m_cart m_pend l_com moi g b).1 i j) 0) ∧
    (∀ i : Fin 4,
      HasDerivAt
        (fun u => NonlinearModel.deriv_vec m_cart m_pend l_com moi g b 0 u i)
        ((LinearizedModel.get_A_B_unitless m_cart m_pend l_com moi g b).2 i) 0) := by
  have hc1 : (0 : ℝ) < moi + m_pend * l_com ^ 2 := by positivity
  have hTlt : m_pend ^ 2 * l_com ^ 2 - (m_cart + m_pend) * (moi + m_pend * l_com ^ 2) < 0 := by
    nlinarith [mul_pos hmc hmoi, mul_pos hmp hmoi,
      mul_pos (mul_pos hmc hmp) (mul_pos hl hl)]
  have hXlt : m_pend ^ 2 * l_com ^ 2 / (moi + m_pend * l_com ^ 2) - (m_cart + m_pend) < 0 := by
    rw [sub_lt_zero, div_lt_iff₀ hc1]
    linarith [hTlt]
  have hc1ne : moi + m_pend * l_com ^ 2 ≠ 0 := ne_of_gt hc1
  have hXne : m_pend ^ 2 * l_com ^ 2 / (moi + m_pend * l_com ^ 2) - (m_cart + m_pend) ≠ 0 :=
    ne_of_lt hXlt
  have hpne : m_cart + m_pend - m_pend ^ 2 * l_com ^ 2 / (moi + m_pend * l_com ^ 2) ≠ 0 := by
    have h0 : 0 < m_cart + m_pend - m_pend ^ 2 * l_com ^ 2 / (moi + m_pend * l_com ^ 2) := by
      linarith [hXlt]
    exact ne_of_gt h0
  have hTne : m_pend ^ 2 * l_com ^ 2 - (m_cart + m_pend) * (moi + m_pend * l_com ^ 2) ≠ 0 :=
    ne_of_lt hTlt
  have hml : m_pend * l_com ≠ 0 := by positivity
  constructor
  · intro i j
    fin_cases i <;> fin_cases j
    · exact hasDerivAt_const 0 0
    · exact hasDerivAt_id' 0
    · exact hasDerivAt_const 0 0
    · exact hasDerivAt_const 0 0
    · convert hasDerivAt_const (0 : ℝ) (0 : ℝ) using 1
      funext v
      simp [NonlinearModel.deriv_vec,
        NonlinearModel.calc_state_derivative_unitless, Pi.single_apply]
    · exact C1_entry_vx_xddot m_cart m_pend l_com moi g b hc1ne hXne hpne
    · exact C1_entry_theta_xddot m_cart m_pend l_com moi g b hc1ne hXne hpne
    · convert hasDerivAt_const (0 : ℝ) (0 : ℝ) using 1
      funext v
      simp [NonlinearModel.deriv_vec,
        NonlinearModel.calc_state_derivative_unitless, Pi.single_apply]
    · exact hasDerivAt_const 0 0
    · exact hasDerivAt_const 0 0
    · exact hasDerivAt_const 0 0
    · exact hasDerivAt_id' 0
    · convert hasDerivAt_const (0 : ℝ) (0 : ℝ) using 1
      funext v
      simp [NonlinearModel.deriv_vec,
        NonlinearModel.calc_state_derivative_unitless, Pi.single_apply]
    · exact C1_entry_vx_thetaddot m_cart m_pend l_com moi g b hml hTne
    · exact C1_entry_theta_thetaddot m_cart m_pend l_com moi g b hml hTne
    · convert hasDerivAt_const (0 : ℝ) (0 : ℝ) using 1
      funext v
      simp [NonlinearModel.deriv_vec,
        NonlinearModel.calc_state_derivative_unitless, Pi.single_apply]
  · intro i
    fin_cases i
    · exact hasDerivAt_const 0 0
    · exact C1_entry_u_xddot m_cart m_pend l_com moi g b hc1ne hpne
    · exact hasDerivAt_const 0 0
    · exact C1_entry_u_thetaddot m_cart m_pend l_com moi g b hml hTne

/-- Witness for C1 at the concrete valid plant with all parameters 1. -/
theorem C1_witness :
    ((0 : ℝ) < 1 ∧ (0 : ℝ) < 1 ∧ (0 : ℝ) < 1 ∧ (0 : ℝ) < 1) ∧
      ((∀ i j : Fin 4,
        HasDerivAt
          (fun v => NonlinearModel.deriv_vec 1 1 1 1 1 1 (Pi.single j v) 0 i)
          ((LinearizedModel.get_A_B_unitless 1 1 1 1 1 1).1 i j) 0) ∧
      (∀ i : Fin 4,
        HasDerivAt
          (fun u => NonlinearModel.deriv_vec 1 1 1 1 1 1 0 u i)
          ((LinearizedModel.get_A_B_unitless 1 1 1 1 1 1).2 i) 0)) :=
  ⟨⟨by norm_num, by norm_num, by norm_num, by norm_num⟩,
    C1_linearization_matches 1 1 1 1 1 1 (by norm_num) (by norm_num) (by norm_num)
      (by norm_num)⟩

/-- **C8** — Round-trip: for every state whose four components are
(finite real) canonical-unit quantities, rebuilding the state from its
projected vector reproduces the state exactly:
`State.from_vector (State.to_vector s) = s`. -/
theorem C8_state_vector_round_trip (s : State) :
    State.from_vector (State.to_vector s) = s := State.from_vector_to_vector s

/-- **C9** — An `Actuator` constructed with `force_limit = 0` never
clamps: `enforce_limit` returns every input unchanged, exactly as for
an absent (`None`) limit, because the Python truthiness check
`if self.force_limit and ...` treats a zero limit as absent. -/
theorem C9_zero_force_limit_no_clamp (rr cl : Option ℝ) (u : ℝ) :
    Actuator.enforce_limit ⟨some 0, rr, cl⟩ u = u ∧
      Actuator.enforce_limit ⟨some 0, rr, cl⟩ u = Actuator.enforce_limit ⟨none, rr, cl⟩ u := by
  constructor <;> simp [Actuator.enforce_limit]

/-- **C10** — `ConstantController.compute_u` is independent of the
sensed state: for every system and any two states the returned force
is the same, determined only by the stored constant force and the
actuator's force limit. -/
theorem C10_constant_controller_state_independent (u0 : ℝ) (sys : System) (s1 s2 : State) :
    Controller.compute_u (.const u0) sys s1 = Controller.compute_u (.const u0) sys s2 := rfl

/-- **C6** (amended) — For every actuator whose configured force limit
`L` is nonzero and every force `u` with `|u| > L`, `enforce_limit`
returns exactly `sign(u) * L`; and both `ConstantController.compute_u`
and `LQRController.compute_u` are exactly `enforce_limit` applied to
the raw computed force, i.e. `enforce_limit` is the last step of every
`compute_u`.  (The original claim, quantifying over every configured
limit, fails at `L = 0`: see the counterexample.) -/
theorem C6_enforce_limit_clamps (a : Actuator) (L u : ℝ)
    (hL : a.force_limit = some L) (h0 : L ≠ 0) (hu : |u| > L) :
    a.enforce_limit u = Real.sign u * L ∧
      (∀ u0 sys s, Controller.compute_u (.const u0) sys s = sys.actuator.enforce_limit u0) ∧
      (∀ K sp sys s, Controller.compute_u (.lqr K sp) sys s =
        sys.actuator.enforce_limit (-(∑ i, K i * (s.to_vector i - sp i)))) := by
  refine ⟨?_, fun _ _ _ => rfl, fun _ _ _ _ => rfl⟩
  simp [Actuator.enforce_limit, hL, h0, hu]

/-- Witness for C6: actuator with force limit `2`, input `3`; the
clamped value is `sign 3 * 2 = 2`. -/
theorem C6_witness :
    ((⟨some 2, none, none⟩ : Actuator).force_limit = some 2 ∧ (2 : ℝ) ≠ 0 ∧ |(3 : ℝ)| > 2) ∧
      Actuator.enforce_limit ⟨some 2, none, none⟩ 3 = Real.sign 3 * 2 :=
  ⟨⟨rfl, by norm_num, by norm_num⟩,
    (C6_enforce_limit_clamps ⟨some 2, none, none⟩ 2 3 rfl (by norm_num) (by norm_num)).1⟩

/-- Counterexample to C6 as stated: with a configured force limit of
exactly `0` and input `1` (so `|u| > L`), `enforce_limit` returns `1`
unchanged, not `sign(1) * 0 = 0` — the Python truthiness check skips
clamping for a zero limit. -/
theorem C6_counterexample :
    Actuator.enforce_limit ⟨some 0, none, none⟩ 1 ≠ Real.sign 1 * 0 := by
  simp [Actuator.enforce_limit]

/-- **C7** — `RK4Integrator.step` computes exactly the classical
four-stage Runge-Kutta update: `k1 = f(s)`,
`k2 = f(s.add_vector (0.5 * dt * k1))`,
`k3 = f(s.add_vector (0.5 * dt * k2))`,
`k4 = f(s.add_vector (dt * k3))`, and the result is
`s.add_vector ((dt / 6) * (k1 + 2 * k2 + 2 * k3 + k4))`, with the
extra arguments (system and control input) passed unchanged to all
four stage evaluations. -/
theorem C7_rk4_classical (f : State → System → ℝ → Fin 4 → ℝ)
    (state : State) (dt : ℝ) (sys : System) (u : ℝ) :
    RK4Integrator.step f state dt sys u =
      (let k1 := f state sys u
       let k2 := f (state.add_vector fun i => 0.5 * dt * k1 i) sys u
       let k3 := f (state.add_vector fun i => 0.5 * dt * k2 i) sys u
       let k4 := f (state.add_vector fun i => dt * k3 i) sys u
       state.add_vector fun i => dt / 6 * (k1 i + 2 * k2 i + 2 * k3 i + k4 i)) := by
  have e1 : ∀ k : Fin 4 → ℝ, (fun i => 0.5 * k i * dt) = (fun i => 0.5 * dt * k i) := by
    intro k; funext i; ring
  have e2 : ∀ k : Fin 4 → ℝ, (fun i => k i * dt) = (fun i => dt * k i) := by
    intro k; funext i; ring
  simp only [RK4Integrator.step, State.from_vector_add, e1, e2]

/-- **C3** is a code bug: `LinearizedModel.calc_state_derivative`
evaluates `A @ x + B * u` where `A @ x` has shape `(4,)` and `B * u`
shape `(4, 1)`, so NumPy broadcasting yields a `(4, 4)` array instead
of the 4-component derivative vector the spec and the
`AbstractDynamicsModel` contract require.  At plant
`(m_cart, m_pend, l_com, moi, g, b) = (1, 1, 1, 1, 1, 1)`, state
`(0, 1, 0, 0)`, `u = 1`, the returned array varies along both axes
(entries `(0,0) = 1`, `(1,0) = 5/3`, `(0,1) = -2/3`), so it is not any
broadcast reshaping of a single 4-vector. -/
theorem C3_code_bug_broadcast :
    (LinearizedModel.calc_state_derivative ⟨0, 1, 0, 0⟩
        ⟨⟨none, none, none⟩, 1, 1, 1, 1, 1, 1⟩ 1) 0 0 ≠
      (LinearizedModel.calc_state_derivative ⟨0, 1, 0, 0⟩
        ⟨⟨none, none, none⟩, 1, 1, 1, 1, 1, 1⟩ 1) 1 0 ∧
    (LinearizedModel.calc_state_derivative ⟨0, 1, 0, 0⟩
        ⟨⟨none, none, none⟩, 1, 1, 1, 1, 1, 1⟩ 1) 0 0 ≠
      (LinearizedModel.calc_state_derivative ⟨0, 1, 0, 0⟩
        ⟨⟨none, none, none⟩, 1, 1, 1, 1, 1, 1⟩ 1) 0 1 ∧
    LinearizedModel.calc_state_derivative_spec ⟨0, 1, 0, 0⟩
        ⟨⟨none, none, none⟩, 1, 1, 1, 1, 1, 1⟩ 1 = ![1, 0, 0, 0] := by
  refine ⟨?_, ?_, ?_⟩ <;>
    · simp only [LinearizedModel.calc_state_derivative,
        LinearizedModel.calc_state_derivative_spec, LinearizedModel.get_A_B,
        LinearizedModel.get_A_B_unitless, Matrix.mulVec, Matrix.dotProduct,
        Fin.sum_univ_four, State.to_vector, Matrix.of_apply]
      first
        | (funext i; fin_cases i <;>
            norm_num [Matrix.cons_val_zero, Matrix.cons_val_one, Matrix.head_cons])
        | norm_num [Matrix.cons_val_zero, Matrix.cons_val_one, Matrix.head_cons]

/-- **C2** (amended) — `Simulation.run` initializes `u = lag_u = 0`
and `lag_window_start = times[0]`, but it does *not* set the
previous-time variable to `times[0]`: `self.time` keeps its pre-run
value (dataclass default `0.0`), and `update` runs on the very first
timestamp.  The first recorded state therefore equals the initial
state's vector exactly when `times[0]` equals the pre-run time (then
`dt = 0` and the integrator is a no-op), not regardless of
`times[0]`. -/
theorem C2_run_initialization (sys : System) (ctrl : Controller) (s0 : State) (t0 : ℝ)
    (t : ℝ) (rest : List ℝ) (h : t = t0) :
    (Simulation.init s0 t0 (t :: rest)).u = 0 ∧
      (Simulation.init s0 t0 (t :: rest)).lag_u = 0 ∧
      (Simulation.init s0 t0 (t :: rest)).lag_window_start = t ∧
      (Simulation.run sys ctrl s0 t0 (t :: rest)).1.headD 0 = s0.to_vector := by
  subst h
  refine ⟨rfl, rfl, rfl, ?_⟩
  simp [Simulation.run, Simulation.loop, Simulation.update, Simulation.init,
    sub_self, RK4Integrator.step_dt_zero]

/-- Witness for C2 (amended): a run over `times = [0]` from pre-run
time `0` records the initial condition unchanged. -/
theorem C2_witness :
    ((0 : ℝ) = 0) ∧
      ((Simulation.init ⟨0, 1, 0, 0⟩ 0 [0]).u = 0 ∧
        (Simulation.init ⟨0, 1, 0, 0⟩ 0 [0]).lag_u = 0 ∧
        (Simulation.init ⟨0, 1, 0, 0⟩ 0 [0]).lag_window_start = 0 ∧
        (Simulation.run testSystem (.const 0) ⟨0, 1, 0, 0⟩ 0 [0]).1.headD 0 =
          (State.mk 0 1 0 0).to_vector) :=
  ⟨rfl, C2_run_initialization testSystem (.const 0) ⟨0, 1, 0, 0⟩ 0 0 [] rfl⟩

/-- Counterexample to C2 as stated: with the strictly increasing
one-element time sequence `[1]` and initial state `(0, 1, 0, 0)` on
`testSystem`, the first recorded state vector has `x = 1`, not the
initial `x = 0` — the loop advances the dynamics by
`dt = times[0] - 0 = 1` before recording the first sample, so the
first entry is *not* the initial condition when `times[0] ≠ 0`. -/
theorem C2_counterexample :
    ((Simulation.run testSystem (.const 0) ⟨0, 1, 0, 0⟩ 0 [1]).1.headD 0) 0 ≠
      (State.mk 0 1 0 0).to_vector 0 := by
  simp [Simulation.run, Simulation.loop, Simulation.init, Simulation.update,
    Actuator.is_update_time, Actuator.is_past_lag_time, Controller.compute_u,
    Actuator.enforce_limit, rk4_flat, State.to_vector]

/-- **C4** (amended) — On a duplicate-timestamp tick (`dt = 0`) the
state is unchanged (the RK4 step is a no-op), but the tick is *not* a
complete no-op: `is_update_time` treats `dt == 0` as an update time,
so the controller is re-queried on the current state,
`lag_window_start` is reset to `t`, and — whenever the lag window test
passes, in particular with no configured command lag — the freshly
computed command becomes the applied input `u`, which may differ from
the previous tick's recorded input. -/
theorem C4_dt_zero_tick (sys : System) (ctrl : Controller) (σ : SimState) (t : ℝ)
    (h : t = σ.time) :
    (Simulation.update sys ctrl σ t).state = σ.state ∧
      (Simulation.update sys ctrl σ t).lag_u = ctrl.compute_u sys σ.state ∧
      (Simulation.update sys ctrl σ t).lag_window_start = t ∧
      (Simulation.update sys ctrl σ t).u =
        (if sys.actuator.is_past_lag_time t t then ctrl.compute_u sys σ.state else σ.u) := by
  subst h
  simp [Simulation.update, sub_self, RK4Integrator.step_dt_zero,
    Actuator.is_update_time_dt_zero]

/-- Witness for C4 (amended) at a concrete zero-length tick. -/
theorem C4_witness :
    ((0 : ℝ) = (SimState.mk 0 ⟨0, 1, 0, 0⟩ 5 7 0).time) ∧
      ((Simulation.update testSystem (.const 0) (SimState.mk 0 ⟨0, 1, 0, 0⟩ 5 7 0) 0).state =
          (SimState.mk 0 ⟨0, 1, 0, 0⟩ 5 7 0).state ∧
        (Simulation.update testSystem (.const 0) (SimState.mk 0 ⟨0, 1, 0, 0⟩ 5 7 0) 0).lag_u =
          Controller.compute_u (.const 0) testSystem ⟨0, 1, 0, 0⟩ ∧
        (Simulation.update testSystem (.const 0)
            (SimState.mk 0 ⟨0, 1, 0, 0⟩ 5 7 0) 0).lag_window_start = 0 ∧
        (Simulation.update testSystem (.const 0) (SimState.mk 0 ⟨0, 1, 0, 0⟩ 5 7 0) 0).u =
          (if testSystem.actuator.is_past_lag_time 0 0 then
            Controller.compute_u (.const 0) testSystem ⟨0, 1, 0, 0⟩
          else (SimState.mk 0 ⟨0, 1, 0, 0⟩ 5 7 0).u)) :=
  ⟨rfl, C4_dt_zero_tick testSystem (.const 0) (SimState.mk 0 ⟨0, 1, 0, 0⟩ 5 7 0) 0 rfl⟩

/-- Counterexample to C4 as stated: on `testSystem` with the LQR
controller `u = -x` (gain row `(1,0,0,0)`, setpoint `0`), initial
state `(0, 1, 0, 0)` and times `[0, 1, 1]`, the duplicated timestamp
records input `-1` while the previous tick recorded `0`: the
zero-length step recomputes the command from the current state instead
of keeping the previous input. -/
theorem C4_counterexample :
    (Simulation.run testSystem (.lqr ![1, 0, 0, 0] 0) ⟨0, 1, 0, 0⟩ 0 [0, 1, 1]).2.getD 2 37 ≠
      (Simulation.run testSystem (.lqr ![1, 0, 0, 0] 0) ⟨0, 1, 0, 0⟩ 0 [0, 1, 1]).2.getD 1 37 := by
  simp [Simulation.run, Simulation.loop, Simulation.init, Simulation.update,
    Actuator.is_update_time, Actuator.is_past_lag_time, Controller.compute_u,
    Actuator.enforce_limit, RK4Integrator.step_dt_zero, rk4_flat, State.to_vector,
    Fin.sum_univ_four, Matrix.cons_val_zero, Matrix.cons_val_one, Matrix.head_cons,
    Matrix.cons_val_two, Matrix.cons_val_three, Matrix.vecHead, Matrix.vecTail]

/-- **C5** (amended) — `Simulation.run` performs no validation of the
time sequence: every (nonempty) sequence, monotonic or not, is
processed tick by tick and produces exactly one state-history entry
and one input-history entry per timestamp; no error is signalled
before or during the loop. -/
theorem C5_no_time_validation (sys : System) (ctrl : Controller) (s0 : State) (t0 : ℝ)
    (times : List ℝ) (_h : times ≠ []) :
    (Simulation.run sys ctrl s0 t0 times).1.length = times.length ∧
      (Simulation.run sys ctrl s0 t0 times).2.length = times.length :=
  Simulation.loop_length sys ctrl (Simulation.init s0 t0 times) times

/-- Witness for C5 (amended) on the decreasing sequence `[1, 0]`. -/
theorem C5_witness :
    (([1, 0] : List ℝ) ≠ []) ∧
      ((Simulation.run testSystem (.const 0) ⟨0, 1, 0, 0⟩ 0 [1, 0]).1.length = 2 ∧
        (Simulation.run testSystem (.const 0) ⟨0, 1, 0, 0⟩ 0 [1, 0]).2.length = 2) :=
  ⟨by simp, C5_no_time_validation testSystem (.const 0) ⟨0, 1, 0, 0⟩ 0 [1, 0] (by simp)⟩

/-- Counterexample to C5 as stated: on the strictly decreasing time
sequence `[1, 0]` the run executes both steps and produces two history
entries (here with their concrete values), instead of signalling a
fatal input error before the loop with no entries produced. -/
theorem C5_counterexample :
    (Simulation.run testSystem (.const 0) ⟨0, 1, 0, 0⟩ 0 [1, 0]).1.length = 2 ∧
      ((Simulation.run testSystem (.const 0) ⟨0, 1, 0, 0⟩ 0 [1, 0]).1.getD 1 0) 0 = 0 ∧
      (2 : ℕ) ≠ 0 := by
  refine ⟨(Simulation.loop_length testSystem (.const 0)
    (Simulation.init ⟨0, 1, 0, 0⟩ 0 [1, 0]) [1, 0]).1, ?_, by simp⟩
  simp [Simulation.run, Simulation.loop, Simulation.init, Simulation.update,
    Actuator.is_update_time, Actuator.is_past_lag_time, Controller.compute_u,
    Actuator.enforce_limit, rk4_flat, State.to_vector]

end Pyndulum
